/- Verification of the core subsystems of the abdal-research-website
   repository: the wiki link-graph builder (lib/wiki-links), the Tavily
   research cache (src/lib/tavily-cache.ts), the AI model router
   (src/lib/ai-router.ts), the prompt-cache message assembly
   (src/lib/prompt-cache.ts) and the cost tracker (lib/cost-tracker).

   Embedding conventions:
   - JavaScript strings are Lean String values; character-level scanning
     works on String.data (List Char).  Lengths count code points, which
     agrees with the JS length on the ASCII inputs of all claims.
   - A JavaScript Map is an insertion-ordered association list with
     replace-in-place update (mapSet), and a JS Set is an
     insertion-ordered duplicate-free list (setAdd, dedupJS).
   - Date.now() is passed explicitly as an Int argument; module-level
     mutable caches become explicit state arguments and results.
   - JS numbers are modelled as rationals; regular-expression matching is
     modelled by explicit scanners that follow the concrete patterns of
     the source, using test/matchAll semantics. -/
import Mathlib

/-! ## JavaScript character classes and string helpers -/

/-- The character class of the JS regex \s (whitespace). -/
def isSpaceJS (c : Char) : Bool :=
  c = ' ' || c = '\t' || c = '\n' || c = '\r' ||
  c.val = 11 || c.val = 12 || c.val = 0xa0 || c.val = 0x1680 ||
  (0x2000 ≤ c.val && c.val ≤ 0x200a) ||
  c.val = 0x2028 || c.val = 0x2029 || c.val = 0x202f || c.val = 0x205f ||
  c.val = 0x3000 || c.val = 0xfeff

/-- Line terminators, which the JS regex dot does not match. -/
def isLineTerm (c : Char) : Bool :=
  c = '\n' || c = '\r' || c.val = 0x2028 || c.val = 0x2029

/-- The character class of the JS regex \w used by word boundaries. -/
def isWordChar (c : Char) : Bool :=
  c.isAlphanum || c = '_'

/-- The character class [a-z0-9-] of the bare /wiki/slug pattern. -/
def isSlugChar (c : Char) : Bool :=
  (0x61 ≤ c.val && c.val ≤ 0x7a) || c.isDigit || c = '-'

/-- Strip a literal prefix, returning the remainder on success. -/
def stripPrefixL : List Char → List Char → Option (List Char)
  | [], l => some l
  | _ :: _, [] => none
  | p :: ps, c :: cs => if p = c then stripPrefixL ps cs else none

/-- JS String.prototype.trim on a character list (strips \s at both ends). -/
def trimJS (l : List Char) : List Char :=
  ((l.dropWhile isSpaceJS).reverse.dropWhile isSpaceJS).reverse

/-- JS String.prototype.toLowerCase on a character list (ASCII range). -/
def toLowerJS (l : List Char) : List Char :=
  l.map Char.toLower

mutual

/-- Accumulating scanner for split on the regex \s+, outside a run. -/
def splitWSAux (cur : List Char) : List Char → List (List Char)
  | [] => [cur.reverse]
  | c :: rest =>
    if isSpaceJS c then cur.reverse :: splitWSRun rest
    else splitWSAux (c :: cur) rest

/-- Accumulating scanner for split on the regex \s+, inside a run. -/
def splitWSRun : List Char → List (List Char)
  | [] => [[]]
  | c :: rest => if isSpaceJS c then splitWSRun rest else splitWSAux [c] rest

end

/-- JS split on the regex \s+: segments between maximal whitespace runs,
    keeping empty edge segments exactly as JS does. -/
def splitWS (l : List Char) : List (List Char) :=
  splitWSAux [] l

/-- The word count used by the router: query.split of \s+ then length. -/
def wordCountJS (q : String) : Nat :=
  (splitWS q.data).length

/-- JS Set construction, scanning with the set of elements already seen. -/
def dedupJSAux {α : Type} [DecidableEq α] (seen : List α) : List α → List α
  | [] => []
  | x :: xs => if x ∈ seen then dedupJSAux seen xs else x :: dedupJSAux (x :: seen) xs

/-- JS Set construction from a list: duplicate-free, first occurrence kept. -/
def dedupJS {α : Type} [DecidableEq α] (l : List α) : List α :=
  dedupJSAux [] l

/-- JS Map.get on an insertion-ordered association list. -/
def mapGet {κ β : Type} [DecidableEq κ] (m : List (κ × β)) (k : κ) : Option β :=
  match m with
  | [] => none
  | (k2, v) :: rest => if k2 = k then some v else mapGet rest k

/-- JS Map.set: replace in place if the key exists, else append. -/
def mapSet {κ β : Type} [DecidableEq κ] (k : κ) (v : β) : List (κ × β) → List (κ × β)
  | [] => [(k, v)]
  | (k2, v2) :: rest => if k2 = k then (k, v) :: rest else (k2, v2) :: mapSet k v rest

/-- JS Set.add: append if the element is not already present. -/
def setAdd (s : List String) (x : String) : List String :=
  if x ∈ s then s else s ++ [x]

/-! ## Link extraction (extractWikiLinks, lib/wiki-links)

The three matchAll passes of the source are modelled as three scanners,
each attempting a match at every position and resuming after a match,
exactly as the JS global regexes do.  The quantified character classes of
each pattern exclude the character that follows them, so greedy matching
without backtracking coincides with the JS semantics. -/

/-- One boundary assertion \b after a word character: the next character
    is absent or not a word character. -/
def boundaryAfter : List Char → Bool
  | [] => true
  | c :: _ => !(isWordChar c)

/-- Attempt the tail of a match of the pattern for markdown links
    of shape bracket text bracket, then the /wiki/ route and a slug in
    parentheses.  Called with the part after the opening bracket;
    returns the captured slug and the remainder, certified shorter than
    the input so that the enclosing matchAll scan terminates. -/
def tryMatchMd (rest : List Char) :
    Option (List Char × {r : List Char // r.length ≤ rest.length}) :=
  let txt := rest.takeWhile (fun c => c != ']')
  if txt.isEmpty then none
  else
    match h1 : rest.dropWhile (fun c => c != ']') with
    | ']' :: '(' :: '/' :: 'w' :: 'i' :: 'k' :: 'i' :: '/' :: r3 =>
      let slug := r3.takeWhile (fun c => c != ')')
      if slug.isEmpty then none
      else
        match h2 : r3.dropWhile (fun c => c != ')') with
        | ')' :: r5 =>
          some (slug, ⟨r5, by
            have a1 := (List.dropWhile_sublist (l := rest)
              (fun c => c != ']')).length_le
            have a2 := (List.dropWhile_sublist (l := r3)
              (fun c => c != ')')).length_le
            rw [h1] at a1; rw [h2] at a2
            simp only [List.length_cons] at a1 a2
            omega⟩)
        | _ => none
    | _ => none

/-- Attempt the tail of a match of the double-bracket wiki-link pattern,
    with an optional pipe-separated second segment.  Called with the part
    after the first opening bracket; returns the two captured groups and
    the certified remainder. -/
def tryMatchWiki (rest : List Char) :
    Option ((List Char × Option (List Char)) ×
      {r : List Char // r.length ≤ rest.length}) :=
  match rest with
  | '[' :: r1 =>
    let g1 := r1.takeWhile (fun c => c != ']' && c != '|')
    if g1.isEmpty then none
    else
      match h1 : r1.dropWhile (fun c => c != ']' && c != '|') with
      | '|' :: r3 =>
        let g2 := r3.takeWhile (fun c => c != ']')
        if g2.isEmpty then none
        else
          match h2 : r3.dropWhile (fun c => c != ']') with
          | ']' :: ']' :: r5 =>
            some ((g1, some g2), ⟨r5, by
              have a1 := (List.dropWhile_sublist (l := r1)
                (fun c => c != ']' && c != '|')).length_le
              have a2 := (List.dropWhile_sublist (l := r3)
                (fun c => c != ']')).length_le
              rw [h1] at a1; rw [h2] at a2
              simp only [List.length_cons] at a1 a2 ⊢
              omega⟩)
          | _ => none
      | ']' :: ']' :: r5 =>
        some ((g1, none), ⟨r5, by
          have a1 := (List.dropWhile_sublist (l := r1)
            (fun c => c != ']' && c != '|')).length_le
          rw [h1] at a1
          simp only [List.length_cons] at a1 ⊢
          omega⟩)
      | _ => none
  | _ => none

/-- Attempt the tail of a match of the bare /wiki/slug pattern.  Called
    with the part after the leading slash; returns the captured slug and
    the certified remainder. -/
def tryMatchRaw (rest : List Char) :
    Option (List Char × {r : List Char // r.length ≤ rest.length}) :=
  match rest with
  | 'w' :: 'i' :: 'k' :: 'i' :: '/' :: r1 =>
    let slug := r1.takeWhile isSlugChar
    if slug.isEmpty then none
    else
      some (slug, ⟨r1.dropWhile isSlugChar, by
        have a1 := (List.dropWhile_sublist (l := r1) isSlugChar).length_le
        simp only [List.length_cons]
        omega⟩)
  | _ => none

/- The three matchAll scans recurse on the remainder that a successful
   match leaves behind, which is not a structural subterm, so each scan
   carries a fuel argument that is recursively spent one unit per input
   position.  A match starting at a position consumes that position plus
   a remainder certified no longer than the rest of the input, so fuel
   equal to the input length never runs out and the zero-fuel branch is
   unreachable: the fuelled scan is exactly the JS matchAll loop, while
   staying structurally recursive and hence kernel-computable. -/

/-- Fuelled matchAll scan for the markdown-link pattern. -/
def scanMdF : Nat → List Char → List (List Char)
  | 0, _ => []
  | _, [] => []
  | fuel + 1, c :: rest =>
    if c = '[' then
      match tryMatchMd rest with
      | some (slug, rem) => slug :: scanMdF fuel rem.1
      | none => scanMdF fuel rest
    else scanMdF fuel rest

/-- matchAll scan for the markdown-link pattern, collecting slugs. -/
def scanMd (l : List Char) : List (List Char) :=
  scanMdF l.length l

/-- Fuelled matchAll scan for the double-bracket pattern. -/
def scanWikiF : Nat → List Char → List (List Char × Option (List Char))
  | 0, _ => []
  | _, [] => []
  | fuel + 1, c :: rest =>
    if c = '[' then
      match tryMatchWiki rest with
      | some (m, rem) => m :: scanWikiF fuel rem.1
      | none => scanWikiF fuel rest
    else scanWikiF fuel rest

/-- matchAll scan for the double-bracket pattern, collecting group pairs. -/
def scanWiki (l : List Char) : List (List Char × Option (List Char)) :=
  scanWikiF l.length l

/-- Fuelled matchAll scan for the bare /wiki/slug pattern. -/
def scanRawF : Nat → List Char → List (List Char)
  | 0, _ => []
  | _, [] => []
  | fuel + 1, c :: rest =>
    if c = '/' then
      match tryMatchRaw rest with
      | some (slug, rem) => slug :: scanRawF fuel rem.1
      | none => scanRawF fuel rest
    else scanRawF fuel rest

/-- matchAll scan for the bare /wiki/slug pattern, collecting slugs. -/
def scanRaw (l : List Char) : List (List Char) :=
  scanRawF l.length l

/-- Replace every maximal \s+ run by a single hyphen; the Bool state
    records whether the previous character was inside a run. -/
def replaceWsAux : Bool → List Char → List Char
  | _, [] => []
  | inRun, c :: rest =>
    if isSpaceJS c then
      if inRun then replaceWsAux true rest
      else '-' :: replaceWsAux true rest
    else c :: replaceWsAux false rest

/-- Slug normalization of the wiki-link pass: toLowerCase then replace
    \s+ runs by single hyphens. -/
def normalizeSlug (l : List Char) : List Char :=
  replaceWsAux false (toLowerJS l)

/-- extractWikiLinks on a character list: the three passes of the source,
    the raw pass deduplicating against the accumulated list, then the
    final JS Set deduplication. -/
def extractLinksL (content : List Char) : List (List Char) :=
  let links1 := scanMd content
  let links2 := links1 ++ (scanWiki content).map (fun m => normalizeSlug (m.2.getD m.1))
  let links3 := (scanRaw content).foldl
    (fun acc s => if s ∈ acc then acc else acc ++ [s]) links2
  dedupJS links3

/-- extractWikiLinks of the source, at the String level. -/
def extractWikiLinks (content : String) : List String :=
  (extractLinksL content.data).map (fun l => String.mk l)

/-! ## Link graph (buildLinkGraph and derived views, lib/wiki-links) -/

/-- One wiki page record as built by buildLinkGraph. -/
structure WikiPage where
  slug : String
  title : String
  description : Option String
  category : Option String
  keywords : List String
  related : List String
  seeAlso : List String
deriving DecidableEq

/-- The aggregate link graph: pages, forward links and backlinks. -/
structure LinkGraph where
  pages : List (String × WikiPage)
  forwardLinks : List (String × List String)
  backlinks : List (String × List String)

/-- One markdown file after frontmatter parsing: the buildLinkGraph logic
    proper starts after readdir, readFile and gray-matter, so the file
    list with parsed frontmatter fields is the input of the embedding.
    Absent list-valued frontmatter keys are the empty list, matching the
    or-else-empty defaults of the source. -/
structure ChapterFile where
  name : String
  title : Option String
  description : Option String
  category : Option String
  keywords : List String
  related : List String
  seeAlso : List String
  content : String
deriving DecidableEq

/-- JS truthiness of an optional string: undefined and the empty string
    are falsy. -/
def truthyS : Option String → Bool
  | none => false
  | some s => s ≠ ""

/-- The slug of a file name: JS replace of the first occurrence of the
    literal .md by the empty string. -/
def removeFirstSub (pat : List Char) : List Char → List Char
  | [] => []
  | c :: rest =>
    match stripPrefixL pat (c :: rest) with
    | some r => r
    | none => c :: removeFirstSub pat rest

/-- File name to slug, as in the source: name.replace of .md. -/
def slugOfFileName (name : String) : String :=
  String.mk (removeFirstSub ".md".data name.data)

/-- The page record of the first pass: title falls back to the slug when
    the frontmatter title is falsy. -/
def mkWikiPage (slug : String) (f : ChapterFile) : WikiPage :=
  { slug := slug
    title := match f.title with
      | some t => if t = "" then slug else t
      | none => slug
    description := f.description
    category := f.category
    keywords := f.keywords
    related := f.related
    seeAlso := f.seeAlso }

/-- One file of the first pass of buildLinkGraph: skip the file unless
    its name ends in .md, else record its page and forward-link set. -/
def firstPassStep (acc : List (String × WikiPage) × List (String × List String))
    (file : ChapterFile) :
    List (String × WikiPage) × List (String × List String) :=
  if (".md".data).isSuffixOf file.name.data then
    let slug := slugOfFileName file.name
    let contentLinks := extractWikiLinks file.content
    let allLinks := dedupJS (contentLinks ++ file.related ++ file.seeAlso)
    (mapSet slug (mkWikiPage slug file) acc.1, mapSet slug allLinks acc.2)
  else acc

/-- First pass of buildLinkGraph: load pages and forward links. -/
def firstPass (files : List ChapterFile) :
    List (String × WikiPage) × List (String × List String) :=
  files.foldl firstPassStep ([], [])

/-- One step of the second pass: ensure the backlink set of one target
    exists and add one source slug to it. -/
def addBacklink (fromSlug : String) (bl : List (String × List String))
    (toSlug : String) : List (String × List String) :=
  mapSet toSlug (setAdd ((mapGet bl toSlug).getD []) fromSlug) bl

/-- Inner loop of the second pass: add one source slug to the backlink
    set of every target slug. -/
def addBacklinks1 (bl : List (String × List String)) (fromSlug : String)
    (toSlugs : List String) : List (String × List String) :=
  toSlugs.foldl (addBacklink fromSlug) bl

/-- Second pass of buildLinkGraph: invert the forward-link map. -/
def buildBacklinks (fl : List (String × List String)) : List (String × List String) :=
  fl.foldl (fun bl e => addBacklinks1 bl e.1 e.2) []

/-- buildLinkGraph over an explicit file list. -/
def buildLinkGraph (files : List ChapterFile) : LinkGraph :=
  let fp := firstPass files
  { pages := fp.1, forwardLinks := fp.2, backlinks := buildBacklinks fp.2 }

/-- getBacklinks: resolve each backlink source to its page, silently
    dropping sources with no page record. -/
def getBacklinks (graph : LinkGraph) (slug : String) : List WikiPage :=
  ((mapGet graph.backlinks slug).getD []).filterMap (fun s => mapGet graph.pages s)

/-- getRelatedPages: union of related and seeAlso, resolved to pages,
    dangling references dropped; empty for an unknown slug. -/
def getRelatedPages (graph : LinkGraph) (slug : String) : List WikiPage :=
  match mapGet graph.pages slug with
  | none => []
  | some page =>
    (dedupJS (page.related ++ page.seeAlso)).filterMap (fun s => mapGet graph.pages s)

/-- getCategoryPages: pages sharing the category, excluding the page
    itself; empty when the page is unknown or its category is falsy. -/
def getCategoryPages (graph : LinkGraph) (slug : String) : List WikiPage :=
  match mapGet graph.pages slug with
  | none => []
  | some page =>
    if truthyS page.category then
      (graph.pages.map (fun e => e.2)).filter
        (fun p => p.category = page.category ∧ p.slug ≠ slug)
    else []

/-! ## Tavily research cache (src/lib/tavily-cache.ts) -/

/-- Search parameters of the Tavily cache. -/
structure TavilySearchParams where
  query : String
  maxResults : Option Nat
  searchDepth : Option String
  includeDomains : Option (List String)
  excludeDomains : Option (List String)
deriving DecidableEq

/-- One search hit in a Tavily result; the score is a JS number. -/
structure TavilyItem where
  title : String
  url : String
  content : String
  score : ℚ
deriving DecidableEq

/-- A Tavily search result payload. -/
structure TavilySearchResult where
  query : String
  results : List TavilyItem
  cached : Bool
  timestamp : Int
deriving DecidableEq

/-- One cache entry: payload plus expiry timestamp. -/
structure CacheEntry where
  data : TavilySearchResult
  expiresAt : Int
deriving DecidableEq

/-- The normalized parameter record that getCacheKey serializes and
    hashes.  SHA-256 maps equal JSON strings to equal digests, so the
    cache key is modelled by the normalized record itself. -/
structure NormalizedParams where
  query : String
  maxResults : Nat
  searchDepth : String
  includeDomains : List String
  excludeDomains : List String
deriving DecidableEq

/-- Insertion sort with the lexicographic string order of the default JS
    Array.prototype.sort. -/
def insertSorted (x : String) : List String → List String
  | [] => [x]
  | y :: ys => if x ≤ y then x :: y :: ys else y :: insertSorted x ys

/-- JS Array.prototype.sort for string lists. -/
def sortJS (l : List String) : List String :=
  l.foldr insertSorted []

/-- The in-memory research cache: an insertion-ordered map from cache
    keys to entries. -/
def ResearchCache : Type := List (NormalizedParams × CacheEntry)

/-- Cache TTL of seven days in milliseconds. -/
def CACHE_TTL : Int := 7 * 24 * 60 * 60 * 1000

/-- Similarity threshold for the fallback lookup tier. -/
def SIMILARITY_THRESHOLD : ℚ := 0.85

/-- getCacheKey: lower-case and trim the query, default-fill the optional
    fields and sort the domain lists. -/
def getCacheKey (params : TavilySearchParams) : NormalizedParams :=
  { query := String.mk (trimJS (toLowerJS params.query.data))
    maxResults := params.maxResults.getD 5
    searchDepth := params.searchDepth.getD "basic"
    includeDomains := sortJS (params.includeDomains.getD [])
    excludeDomains := sortJS (params.excludeDomains.getD []) }

/-- The word set of a query: toLowerCase, split on \s+, as a JS Set. -/
def wordSet (q : String) : List (List Char) :=
  dedupJS (splitWS (toLowerJS q.data))

/-- calculateSimilarity: word-set Jaccard similarity of two queries. -/
def calculateSimilarity (query1 query2 : String) : ℚ :=
  let words1 := wordSet query1
  let words2 := wordSet query2
  let intersection := words1.filter (fun w => w ∈ words2)
  let union := dedupJS (words1 ++ words2)
  (intersection.length : ℚ) / (union.length : ℚ)

/-- findSimilarQuery: scan the cache in insertion order, deleting expired
    entries as they are passed and returning the first live entry whose
    stored query is at least as similar as the threshold.  Returns the
    result together with the cache left behind by the deletions. -/
def findSimilarQuery (params : TavilySearchParams) (now : Int) :
    List (NormalizedParams × CacheEntry) →
    Option CacheEntry × List (NormalizedParams × CacheEntry)
  | [] => (none, [])
  | (k, e) :: rest =>
    if e.expiresAt < now then findSimilarQuery params now rest
    else if SIMILARITY_THRESHOLD ≤ calculateSimilarity params.query e.data.query then
      (some e, (k, e) :: rest)
    else
      let r := findSimilarQuery params now rest
      (r.1, (k, e) :: r.2)

/-- The similarity fallback of getCachedResult. -/
def getCachedFallback (params : TavilySearchParams) (now : Int)
    (cache : List (NormalizedParams × CacheEntry)) :
    Option TavilySearchResult × List (NormalizedParams × CacheEntry) :=
  match findSimilarQuery params now cache with
  | (some e, c2) => (some { e.data with cached := true }, c2)
  | (none, c2) => (none, c2)

/-- getCachedResult: exact-key tier (hit only while the expiry is in the
    future), then the similarity fallback tier. -/
def getCachedResult (params : TavilySearchParams) (now : Int)
    (cache : List (NormalizedParams × CacheEntry)) :
    Option TavilySearchResult × List (NormalizedParams × CacheEntry) :=
  match mapGet cache (getCacheKey params) with
  | some entry =>
    if now < entry.expiresAt then (some { entry.data with cached := true }, cache)
    else getCachedFallback params now cache
  | none => getCachedFallback params now cache

/-- setCachedResult: insert or overwrite under the exact key with a fresh
    expiry of now plus the TTL. -/
def setCachedResult (params : TavilySearchParams) (result : TavilySearchResult)
    (now : Int) (cache : List (NormalizedParams × CacheEntry)) :
    List (NormalizedParams × CacheEntry) :=
  mapSet (getCacheKey params) { data := result, expiresAt := now + CACHE_TTL } cache

/-! ## AI model router (src/lib/ai-router.ts) -/

/-- A static model profile. -/
structure ModelConfig where
  model : String
  maxTokens : Nat
  inputCostPer1M : ℚ
  outputCostPer1M : ℚ
  description : String
deriving DecidableEq

/-- The cheap and fast Haiku profile of the MODELS table. -/
def MODELS.HAIKU : ModelConfig :=
  { model := "anthropic/claude-3.5-haiku"
    maxTokens := 400
    inputCostPer1M := 0.25
    outputCostPer1M := 1.25
    description := "Fast, cost-effective for simple queries" }

/-- The high-quality Sonnet profile of the MODELS table. -/
def MODELS.SONNET : ModelConfig :=
  { model := "anthropic/claude-sonnet-4.5"
    maxTokens := 600
    inputCostPer1M := 3.0
    outputCostPer1M := 15.0
    description := "High quality for complex queries" }

/-- The three complexity labels. -/
inductive QueryComplexity where
  | simple
  | medium
  | complex
deriving DecidableEq

/-- The lower-cased trimmed query that the classifier patterns test. -/
def lowerQueryOf (query : String) : List Char :=
  trimJS (toLowerJS query.data)

/-- Anchored test of one literal word followed by a boundary. -/
def startsWithB (l : List Char) (w : String) : Bool :=
  match stripPrefixL w.data l with
  | some r => boundaryAfter r
  | none => false

/-- Anchored test of a literal followed by one of the alternatives and a
    boundary, as in the patterns what-is, who-is and friends. -/
def startsWithAltB (l : List Char) (pre : String) (alts : List String) : Bool :=
  match stripPrefixL pre.data l with
  | some r => alts.any (fun a => startsWithB r a)
  | none => false

/-- Scan for target then boundary at every position reachable by the
    regex dot (which stops at line terminators). -/
def dotScanB (target : List Char) : List Char → Bool
  | [] => false
  | c :: rest =>
    (match stripPrefixL target (c :: rest) with
     | some r => boundaryAfter r
     | none => false)
    || (if isLineTerm c then false else dotScanB target rest)

/-- Scan for a plain target at every position reachable by the dot. -/
def dotScanNB (target : List Char) : List Char → Bool
  | [] => false
  | c :: rest =>
    (stripPrefixL target (c :: rest)).isSome
    || (if isLineTerm c then false else dotScanNB target rest)

/-- The pattern explain-dot-star-briefly with a final boundary. -/
def matchExplainBriefly (l : List Char) : Bool :=
  match stripPrefixL "explain".data l with
  | some r => dotScanB "briefly".data r
  | none => false

/-- matchesSimplePattern: the fourteen anchored simple-intent patterns of
    the source, in order. -/
def matchesSimplePattern (l : List Char) : Bool :=
  startsWithAltB l "what " ["is", "are", "does", "do", "means", "mean", "was", "were"] ||
  startsWithB l "define" ||
  startsWithB l "definition of" ||
  matchExplainBriefly l ||
  startsWithB l "summarize" ||
  startsWithB l "summary of" ||
  startsWithB l "tldr" ||
  startsWithB l "eli5" ||
  startsWithAltB l "quick " ["question", "summary"] ||
  startsWithAltB l "how do " ["i", "you"] ||
  startsWithAltB l "can you " ["list", "name"] ||
  startsWithAltB l "who " ["is", "was", "were"] ||
  startsWithAltB l "when " ["did", "was", "were"] ||
  startsWithAltB l "where " ["is", "was", "were"]

/-- Substring containment, the test of an unanchored literal regex. -/
def containsSubL (t : List Char) : List Char → Bool
  | [] => t.isEmpty
  | c :: rest => t.isPrefixOf (c :: rest) || containsSubL t rest

/-- Substring containment with a String pattern. -/
def containsSub (t : String) (l : List Char) : Bool :=
  containsSubL t.data l

/-- Scan for a word-boundary-preceded alternative from the list, at every
    position reachable by the dot; the Bool state records whether the
    previous character was a word character. -/
def scanAltAfterDot (alts : List (List Char)) : Bool → List Char → Bool
  | _, [] => false
  | prevW, c :: rest =>
    ((!prevW) && alts.any (fun t => (stripPrefixL t (c :: rest)).isSome))
    || (if isLineTerm c then false else scanAltAfterDot alts (isWordChar c) rest)

/-- The causal pattern: boundary, why or how-come, boundary, dot-star,
    boundary, then because, since or reason. -/
def scanWhyBecause : Bool → List Char → Bool
  | _, [] => false
  | prevW, c :: rest =>
    ((!prevW) &&
      ((match stripPrefixL "why".data (c :: rest) with
        | some r => boundaryAfter r &&
            scanAltAfterDot ["because".data, "since".data, "reason".data] true r
        | none => false)
       ||
       (match stripPrefixL "how come".data (c :: rest) with
        | some r => boundaryAfter r &&
            scanAltAfterDot ["because".data, "since".data, "reason".data] true r
        | none => false)))
    || scanWhyBecause (isWordChar c) rest

/-- The pattern explore-dot-star-connection, unanchored. -/
def scanGapNB (t1 t2 : List Char) : List Char → Bool
  | [] => false
  | c :: rest =>
    (match stripPrefixL t1 (c :: rest) with
     | some r => dotScanNB t2 r
     | none => false)
    || scanGapNB t1 t2 rest

/-- matchesComplexPattern: the fourteen complex-intent indicators of the
    source, in order, each alternation expanded to its literal words. -/
def matchesComplexPattern (l : List Char) : Bool :=
  containsSub "compare" l || containsSub "comparison" l || containsSub "comparative" l ||
  containsSub "analyze" l || containsSub "analyzis" l ||
  containsSub "critical" l || containsSub "criticism" l || containsSub "criticize" l ||
  containsSub "evaluate" l || containsSub "evaluation" l ||
  scanWhyBecause false l ||
  containsSub "relationship between" l ||
  containsSub "implication" l ||
  containsSub "consequence" l ||
  containsSub "synthesize" l || containsSub "synthesizing" l ||
  containsSub "in depth" l ||
  containsSub "detailed explanation" l || containsSub "detailed analysis" l ||
  scanGapNB "explore".data "connection".data l ||
  containsSub "philosophical" l ||
  containsSub "theological" l

/-- JS truthiness of the selected-text length guard: undefined is falsy,
    and the empty string is falsy with length zero either way. -/
def hasLongSel : Option String → Bool
  | none => false
  | some t => 100 < t.length

/-- analyzeQueryComplexity: simple patterns, then complex indicators,
    then the length heuristics of the source. -/
def analyzeQueryComplexity (query : String) (selectedText : Option String) :
    QueryComplexity :=
  let lowerQuery := lowerQueryOf query
  if matchesSimplePattern lowerQuery then .simple
  else if matchesComplexPattern lowerQuery then .complex
  else
    let wordCount := wordCountJS query
    let hasSelectedText := hasLongSel selectedText
    if 20 < wordCount ∨ hasSelectedText = true then .medium
    else if wordCount ≤ 10 then .simple
    else .medium

/-- routeQuery: simple queries go to Haiku, everything else to Sonnet. -/
def routeQuery (query : String) (selectedText : Option String) : ModelConfig :=
  if analyzeQueryComplexity query selectedText = .simple then MODELS.HAIKU
  else MODELS.SONNET

/-! ## Cost tracking (lib/cost-tracker) -/

/-- The two Claude model tiers of the cost table. -/
inductive ClaudeModel where
  | haiku
  | sonnet
deriving DecidableEq

/-- calculateClaudeCost: cached tokens at the discounted rate, the
    remaining input tokens at the regular rate, plus the output cost.
    The source also computes an unused plain inputCost value; only the
    three returned summands are modelled. -/
def calculateClaudeCost (inputTokens outputTokens cachedTokens : ℚ)
    (model : ClaudeModel) : ℚ :=
  let outputCost : ℚ :=
    match model with
    | .haiku => (outputTokens / 1000000) * 1.25
    | .sonnet => (outputTokens / 1000000) * 15.0
  let cachedCost : ℚ :=
    (cachedTokens / 1000000) * (match model with | .haiku => 0.025 | .sonnet => 0.3)
  let regularInputCost : ℚ :=
    ((inputTokens - cachedTokens) / 1000000) *
      (match model with | .haiku => 0.25 | .sonnet => 3.0)
  cachedCost + regularInputCost + outputCost

/-! ## Prompt cache assembly (src/lib/prompt-cache.ts) -/

/-- One message segment; the cache-control marker is the ephemeral type
    string when present. -/
structure CachedMessage where
  role : String
  content : String
  cache_control : Option String
deriving DecidableEq

/-- The fixed system prompt that is always sent first and marked
    cacheable. -/
def CACHED_SYSTEM_PROMPT : String :=
  "You are a research assistant for the \"Sacred Madness\" academic wiki, which explores holy foolishness, divine intoxication, and mystical practices across Orthodox Christianity and Sufi Islam.\n\nYour role is to:\n- Help researchers understand complex concepts\n- Suggest connections between ideas\n- Generate research questions\n- Explain theological and mystical terminology\n- Be academically rigorous but accessible\n\nThe wiki covers:\n- Byzantine saloi (6th-11th century holy fools)\n- Russian yurodivye (Basil the Blessed, St. Xenia, Pelagia)\n- Sufi majdhub/mast (divinely intoxicated mystics)\n- Abdalan-i Rum (Anatolian antinomian dervishes - Kalenderi, Bektashi)\n- Comparative mysticism and phenomenology\n- Intersection of psychiatry, neuroscience, and spirituality\n- St. Dymphna, Geel care model\n- Bipolar II and mystical experience\n\nGeographic focus: Anatolia, Byzantine-Ottoman transitions (6th-16th centuries)\nMethodological approach: Practice-centered analysis, positionality-grounded research, cross-traditional comparison"

/-- truncateContext: identity within the budget, else a prefix of budget
    minus three characters with a three-dot ellipsis appended. -/
def truncateContext (text : String) (maxChars : Nat) : String :=
  if text.length ≤ maxChars then text
  else String.mk (text.data.take (maxChars - 3)) ++ "..."

/-- The system segment of buildCachedMessages. -/
def sysMsg : CachedMessage :=
  { role := "system", content := CACHED_SYSTEM_PROMPT, cache_control := some "ephemeral" }

/-- The page-context segment of buildCachedMessages. -/
def ctxMsg (pageContext : String) : CachedMessage :=
  { role := "user"
    content := "Current Page Context:\n\n" ++ truncateContext pageContext 2000
    cache_control := some "ephemeral" }

/-- The selected-text segment of buildCachedMessages. -/
def selMsg (selectedText : String) : CachedMessage :=
  { role := "user"
    content := "Selected Text for Discussion:\n\"" ++ selectedText ++
      "\"\n\nQuestion about this selection:"
    cache_control := none }

/-- The final user-query segment of buildCachedMessages. -/
def queryMsg (userQuery : String) : CachedMessage :=
  { role := "user", content := userQuery, cache_control := none }

/-- buildCachedMessages: system prompt, then the page context when
    truthy, then the selected text when truthy, then the query.  The
    truthiness tests mirror the JS if statements on optional strings. -/
def buildCachedMessages (userQuery : String)
    (pageContext selectedText : Option String) : List CachedMessage :=
  let m1 := [sysMsg]
  let m2 := if truthyS pageContext then m1 ++ [ctxMsg (pageContext.getD "")] else m1
  let m3 := if truthyS selectedText then m2 ++ [selMsg (selectedText.getD "")] else m2
  m3 ++ [queryMsg userQuery]

/-! ## Concrete inputs used by the witnesses and counterexamples -/

/-- A chapter file whose frontmatter declares two related slugs, one of
    which has no corresponding file. -/
def fileA : ChapterFile :=
  { name := "a.md", title := none, description := none, category := some "cat",
    keywords := [], related := ["b", "ghost"], seeAlso := [], content := "" }

/-- A chapter file with no frontmatter relations and no category. -/
def fileB : ChapterFile :=
  { name := "b.md", title := none, description := none, category := none,
    keywords := [], related := [], seeAlso := [], content := "" }

/-- A two-file content directory. -/
def demoFiles : List ChapterFile := [fileA, fileB]

/-- Search parameters with only the query set, as in the spec examples. -/
def mkParams (q : String) : TavilySearchParams :=
  { query := q, maxResults := none, searchDepth := none,
    includeDomains := none, excludeDomains := none }

/-- A minimal search result payload for a given query. -/
def mkResult (q : String) : TavilySearchResult :=
  { query := q, results := [], cached := false, timestamp := 0 }

/-! ## Map, set and deduplication lemmas -/

/-- Looking up the key written by mapSet yields the written value. -/
theorem mapGet_mapSet_self {κ β : Type} [DecidableEq κ] (k : κ) (v : β)
    (m : List (κ × β)) : mapGet (mapSet k v m) k = some v := by
  induction m with
  | nil => simp [mapSet, mapGet]
  | cons e rest ih =>
    obtain ⟨k2, v2⟩ := e
    by_cases h : k2 = k
    · subst h; simp [mapSet, mapGet]
    · simp only [mapSet, if_neg h, mapGet]
      exact ih

/-- mapSet leaves every other key unchanged. -/
theorem mapGet_mapSet_ne {κ β : Type} [DecidableEq κ] {k k2 : κ} (v : β)
    (m : List (κ × β)) (h : k2 ≠ k) : mapGet (mapSet k v m) k2 = mapGet m k2 := by
  induction m with
  | nil =>
    simp only [mapSet, mapGet]
    rw [if_neg (fun hh => h hh.symm)]
  | cons e rest ih =>
    obtain ⟨k2', v2⟩ := e
    by_cases hk : k2' = k
    · subst hk
      simp only [mapSet, if_pos rfl, mapGet]
      rw [if_neg (fun hh => h hh.symm), if_neg (fun hh => h hh.symm)]
    · simp only [mapSet, if_neg hk, mapGet]
      by_cases hq : k2' = k2
      · rw [if_pos hq, if_pos hq]
      · rw [if_neg hq, if_neg hq]
        exact ih

/-- A successful mapGet lookup comes from an entry of the list. -/
theorem mapGet_mem {κ β : Type} [DecidableEq κ] {m : List (κ × β)} {k : κ} {v : β}
    (h : mapGet m k = some v) : (k, v) ∈ m := by
  induction m with
  | nil => simp [mapGet] at h
  | cons e rest ih =>
    obtain ⟨k2, v2⟩ := e
    simp only [mapGet] at h
    by_cases hk : k2 = k
    · subst hk
      rw [if_pos rfl] at h
      obtain rfl : v2 = v := by injection h
      exact List.mem_cons_self _ _
    · rw [if_neg hk] at h
      exact List.mem_cons_of_mem _ (ih h)

/-- Every entry after mapSet is the written pair or an original entry. -/
theorem mem_mapSet {κ β : Type} [DecidableEq κ] {k : κ} {v : β} :
    ∀ {m : List (κ × β)} {e}, e ∈ mapSet k v m → e = (k, v) ∨ e ∈ m := by
  intro m
  induction m with
  | nil => intro e he; simp [mapSet] at he; exact Or.inl he
  | cons e0 rest ih =>
    obtain ⟨k2, v2⟩ := e0
    intro e he
    by_cases hk : k2 = k
    · subst hk
      simp only [mapSet, if_pos rfl] at he
      rcases List.mem_cons.mp he with h | h
      · exact Or.inl h
      · exact Or.inr (List.mem_cons_of_mem _ h)
    · simp only [mapSet, if_neg hk] at he
      rcases List.mem_cons.mp he with h | h
      · exact Or.inr (h ▸ List.mem_cons_self _ _)
      · rcases ih h with h2 | h2
        · exact Or.inl h2
        · exact Or.inr (List.mem_cons_of_mem _ h2)

/-- setAdd contains the added element. -/
theorem mem_setAdd_self (s : List String) (x : String) : x ∈ setAdd s x := by
  by_cases h : x ∈ s
  · simp [setAdd, h]
  · simp [setAdd, h]

/-- setAdd keeps every original element. -/
theorem mem_setAdd_of_mem {s : List String} {y : String} (x : String)
    (h : y ∈ s) : y ∈ setAdd s x := by
  by_cases hx : x ∈ s
  · simpa [setAdd, hx]
  · simp only [setAdd, if_neg hx]
    exact List.mem_append_left _ h

/-- Membership in the deduplication scan: present in the input and not
    among the elements already seen. -/
theorem mem_dedupJSAux {α : Type} [DecidableEq α] (a : α) (l : List α) :
    ∀ seen, a ∈ dedupJSAux seen l ↔ (a ∈ l ∧ a ∉ seen) := by
  induction l with
  | nil => intro seen; simp [dedupJSAux]
  | cons x xs ih =>
    intro seen
    by_cases hx : x ∈ seen
    · simp only [dedupJSAux, if_pos hx, ih]
      constructor
      · rintro ⟨h1, h2⟩
        exact ⟨List.mem_cons_of_mem _ h1, h2⟩
      · rintro ⟨h1, h2⟩
        rcases List.mem_cons.mp h1 with h | h
        · exact absurd (h ▸ hx) h2
        · exact ⟨h, h2⟩
    · simp only [dedupJSAux, if_neg hx]
      constructor
      · intro h
        rcases List.mem_cons.mp h with h | h
        · subst h; exact ⟨List.mem_cons_self _ _, hx⟩
        · have h2 := (ih (x :: seen)).mp h
          exact ⟨List.mem_cons_of_mem _ h2.1,
            fun hs => h2.2 (List.mem_cons_of_mem _ hs)⟩
      · rintro ⟨h1, h2⟩
        by_cases hax : a = x
        · exact hax ▸ List.mem_cons_self _ _
        · rcases List.mem_cons.mp h1 with h | h
          · exact absurd h hax
          · exact List.mem_cons_of_mem _ ((ih (x :: seen)).mpr
              ⟨h, fun hs => by
                rcases List.mem_cons.mp hs with h3 | h3
                · exact hax h3
                · exact h2 h3⟩)

/-- Membership is invariant under JS Set deduplication. -/
theorem mem_dedupJS {α : Type} [DecidableEq α] (a : α) (l : List α) :
    a ∈ dedupJS l ↔ a ∈ l := by
  simp [dedupJS, mem_dedupJSAux]

/-! ## Backlink construction lemmas -/

/-- One addBacklink step never removes a membership. -/
theorem addBacklink_mono {bl : List (String × List String)} {q p : String}
    (fromSlug toSlug : String) (h : p ∈ (mapGet bl q).getD []) :
    p ∈ (mapGet (addBacklink fromSlug bl toSlug) q).getD [] := by
  unfold addBacklink
  by_cases hq : toSlug = q
  · subst hq
    rw [mapGet_mapSet_self]
    simp only [Option.getD_some]
    exact mem_setAdd_of_mem _ h
  · rw [mapGet_mapSet_ne _ _ (fun hh => hq hh.symm)]
    exact h

/-- The inner backlink loop never removes a membership. -/
theorem addBacklinks1_mono (toSlugs : List String) :
    ∀ (bl : List (String × List String)) (fromSlug q p : String),
      p ∈ (mapGet bl q).getD [] →
      p ∈ (mapGet (addBacklinks1 bl fromSlug toSlugs) q).getD [] := by
  induction toSlugs with
  | nil => intro bl f q p h; exact h
  | cons t ts ih =>
    intro bl f q p h
    show p ∈ (mapGet (addBacklinks1 (addBacklink f bl t) f ts) q).getD []
    exact ih _ _ _ _ (addBacklink_mono f t h)

/-- The inner backlink loop records the source under every target. -/
theorem addBacklinks1_adds (toSlugs : List String) :
    ∀ (bl : List (String × List String)) (fromSlug q : String), q ∈ toSlugs →
      fromSlug ∈ (mapGet (addBacklinks1 bl fromSlug toSlugs) q).getD [] := by
  induction toSlugs with
  | nil => intro bl f q h; simp at h
  | cons t ts ih =>
    intro bl f q hq
    show f ∈ (mapGet (addBacklinks1 (addBacklink f bl t) f ts) q).getD []
    rcases List.mem_cons.mp hq with h | h
    · subst h
      apply addBacklinks1_mono
      unfold addBacklink
      rw [mapGet_mapSet_self]
      simp only [Option.getD_some]
      exact mem_setAdd_self _ _
    · exact ih _ _ _ h

/-- The second-pass fold never removes a membership. -/
theorem buildBacklinks_foldl_mono (fl : List (String × List String)) :
    ∀ (bl : List (String × List String)) (q p : String),
      p ∈ (mapGet bl q).getD [] →
      p ∈ (mapGet (fl.foldl (fun bl e => addBacklinks1 bl e.1 e.2) bl) q).getD [] := by
  induction fl with
  | nil => intro bl q p h; simpa
  | cons e rest ih =>
    intro bl q p h
    simp only [List.foldl_cons]
    exact ih _ _ _ (addBacklinks1_mono _ _ _ _ _ h)

/-- The second-pass fold records every source-target pair of its input. -/
theorem buildBacklinks_complete (fl : List (String × List String)) :
    ∀ (bl : List (String × List String)) (p : String) (tos : List String) (q : String),
      (p, tos) ∈ fl → q ∈ tos →
      p ∈ (mapGet (fl.foldl (fun bl e => addBacklinks1 bl e.1 e.2) bl) q).getD [] := by
  induction fl with
  | nil => intro bl p tos q h; simp at h
  | cons e rest ih =>
    intro bl p tos q hmem hq
    simp only [List.foldl_cons]
    rcases List.mem_cons.mp hmem with h | h
    · rw [show e = (p, tos) from h.symm]
      exact buildBacklinks_foldl_mono rest _ q p (addBacklinks1_adds tos bl p q hq)
    · exact ih _ _ _ _ h hq

/-- Every page record of the first pass carries its own key as slug. -/
theorem firstPass_aux_coherent (files : List ChapterFile) :
    ∀ (acc : List (String × WikiPage) × List (String × List String)),
      (∀ e ∈ acc.1, e.2.slug = e.1) →
      ∀ e ∈ (files.foldl firstPassStep acc).1, e.2.slug = e.1 := by
  induction files with
  | nil => intro acc hacc; exact hacc
  | cons f rest ih =>
    intro acc hacc
    simp only [List.foldl_cons]
    apply ih
    intro e he
    unfold firstPassStep at he
    by_cases hmd : (".md".data).isSuffixOf f.name.data
    · rw [if_pos hmd] at he
      simp only at he
      rcases mem_mapSet he with h | h
      · rw [h]; rfl
      · exact hacc e h
    · rw [if_neg hmd] at he
      exact hacc e he

/-- Every page of a built graph carries its own key as slug. -/
theorem pages_coherent (files : List ChapterFile) {k : String} {pg : WikiPage}
    (h : mapGet (buildLinkGraph files).pages k = some pg) : pg.slug = k :=
  firstPass_aux_coherent files ([], []) (by simp) (k, pg) (mapGet_mem h)

/-! ## Claim C1 -/

/-- C1: for every graph returned by buildLinkGraph and every pair of
    slugs p and q, if q is a member of the forward links of p then p is a
    member of the backlinks of q, including when q has no corresponding
    entry in pages: the second pass inverts every forward edge without
    validating targets, so dangling targets also receive backlink
    entries. -/
theorem C1_backlinks_bidirectional (files : List ChapterFile) (p q : String)
    (h : q ∈ (mapGet (buildLinkGraph files).forwardLinks p).getD []) :
    p ∈ (mapGet (buildLinkGraph files).backlinks q).getD [] := by
  rcases hfl : mapGet (buildLinkGraph files).forwardLinks p with _ | tos
  · rw [hfl] at h; simp at h
  · rw [hfl] at h
    simp only [Option.getD_some] at h
    have hmem : (p, tos) ∈ (buildLinkGraph files).forwardLinks := mapGet_mem hfl
    show p ∈ (mapGet (buildBacklinks (firstPass files).2) q).getD []
    exact buildBacklinks_complete _ [] p tos q hmem h

/-- C1 witness: in the two-file demo directory, page a declares the
    dangling target ghost, and the built graph records a among the
    backlinks of ghost even though ghost has no page entry. -/
theorem C1_backlinks_bidirectional_witness :
    "ghost" ∈ (mapGet (buildLinkGraph demoFiles).forwardLinks "a").getD [] ∧
    "a" ∈ (mapGet (buildLinkGraph demoFiles).backlinks "ghost").getD [] :=
  ⟨by decide, C1_backlinks_bidirectional demoFiles "a" "ghost" (by decide)⟩

/-! ## Claim C2 -/

/-- C2: every WikiPage returned by getBacklinks resolves through the
    pages map, and for a built graph its slug is itself a key of pages;
    a slug with no backlinks entry, no pages entry, or no truthy
    category makes getBacklinks, getRelatedPages and getCategoryPages
    respectively return the empty list rather than an error. -/
theorem C2_derived_view_safety :
    (∀ (g : LinkGraph) (slug : String) (p : WikiPage), p ∈ getBacklinks g slug →
      ∃ s, mapGet g.pages s = some p) ∧
    (∀ (files : List ChapterFile) (slug : String) (p : WikiPage),
      p ∈ getBacklinks (buildLinkGraph files) slug →
      (mapGet (buildLinkGraph files).pages p.slug).isSome = true) ∧
    (∀ (g : LinkGraph) (slug : String), mapGet g.backlinks slug = none →
      getBacklinks g slug = []) ∧
    (∀ (g : LinkGraph) (slug : String), mapGet g.pages slug = none →
      getRelatedPages g slug = []) ∧
    (∀ (g : LinkGraph) (slug : String), mapGet g.pages slug = none →
      getCategoryPages g slug = []) ∧
    (∀ (g : LinkGraph) (slug : String) (page : WikiPage),
      mapGet g.pages slug = some page → truthyS page.category = false →
      getCategoryPages g slug = []) := by
  refine ⟨?_, ?_, ?_, ?_, ?_, ?_⟩
  · intro g slug p hp
    unfold getBacklinks at hp
    obtain ⟨s, _, hs⟩ := List.mem_filterMap.mp hp
    exact ⟨s, hs⟩
  · intro files slug p hp
    unfold getBacklinks at hp
    obtain ⟨s, _, hs⟩ := List.mem_filterMap.mp hp
    rw [pages_coherent files hs, hs]
    rfl
  · intro g slug h
    unfold getBacklinks
    rw [h]
    rfl
  · intro g slug h
    unfold getRelatedPages
    rw [h]
  · intro g slug h
    unfold getCategoryPages
    rw [h]
  · intro g slug page h hcat
    unfold getCategoryPages
    rw [h]
    simp [hcat]

/-- C2 witness: in the demo graph, the page returned among the backlinks
    of b has its slug in pages; the unknown slug zzz yields empty lists
    from all three views, and page b with no category yields an empty
    category view. -/
theorem C2_derived_view_safety_witness :
    (∃ s, mapGet (buildLinkGraph demoFiles).pages s = some (mkWikiPage "a" fileA)) ∧
    (mapGet (buildLinkGraph demoFiles).pages (mkWikiPage "a" fileA).slug).isSome = true ∧
    getBacklinks (buildLinkGraph demoFiles) "zzz" = [] ∧
    getRelatedPages (buildLinkGraph demoFiles) "zzz" = [] ∧
    getCategoryPages (buildLinkGraph demoFiles) "zzz" = [] ∧
    getCategoryPages (buildLinkGraph demoFiles) "b" = [] :=
  ⟨C2_derived_view_safety.1 _ "b" _ (by decide),
   C2_derived_view_safety.2.1 demoFiles "b" _ (by decide),
   C2_derived_view_safety.2.2.1 _ "zzz" (by decide),
   C2_derived_view_safety.2.2.2.1 _ "zzz" (by decide),
   C2_derived_view_safety.2.2.2.2.1 _ "zzz" (by decide),
   C2_derived_view_safety.2.2.2.2.2 _ "b" (mkWikiPage "b" fileB) (by decide) (by decide)⟩

/-! ## Claim C9 -/

/-- C9: for both model tiers and all token counts, calculateClaudeCost
    with zero cached tokens is linear: doubling the input and output
    token counts exactly doubles the returned cost. -/
theorem C9_cost_linear (model : ClaudeModel) (inputTokens outputTokens : ℚ) :
    calculateClaudeCost (2 * inputTokens) (2 * outputTokens) 0 model =
      2 * calculateClaudeCost inputTokens outputTokens 0 model := by
  cases model <;> simp only [calculateClaudeCost] <;> ring

/-! ## Claim C10 -/

/-- The raw-link pass only ever appends, so it keeps every link already
    accumulated. -/
theorem mem_foldl_rawAdd (raws : List (List Char)) :
    ∀ (acc : List (List Char)) (x : List Char), x ∈ acc →
      x ∈ raws.foldl (fun acc s => if s ∈ acc then acc else acc ++ [s]) acc := by
  induction raws with
  | nil => intro acc x h; exact h
  | cons r rs ih =>
    intro acc x h
    simp only [List.foldl_cons]
    apply ih
    by_cases hr : r ∈ acc
    · rw [if_pos hr]; exact h
    · rw [if_neg hr]; exact List.mem_append_left _ h

/-- C10: every two-segment wiki link whose second captured group is s
    contributes the slug obtained by lower-casing s and replacing
    whitespace runs with single hyphens, the same normalization used for
    single-segment links; in particular the two-segment link with display
    Label and slug Holy Fool contributes holy-fool. -/
theorem C10_piped_wikilink_normalization :
    (∀ (content : String) (d s : List Char),
      (d, some s) ∈ scanWiki content.data →
      String.mk (normalizeSlug s) ∈ extractWikiLinks content) ∧
    "holy-fool" ∈ extractWikiLinks "[[Label|Holy Fool]]" := by
  constructor
  · intro content d s hmem
    apply List.mem_map_of_mem
    exact (mem_dedupJS _ _).mpr
      (mem_foldl_rawAdd _ _ _
        (List.mem_append_right _ (List.mem_map.mpr ⟨(d, some s), hmem, rfl⟩)))
  · decide

/-- C10 witness: the scanner captures the pair of groups Label and
    Holy Fool, and holy-fool is among the extracted links. -/
theorem C10_piped_wikilink_normalization_witness :
    (("Label".data, some "Holy Fool".data) ∈ scanWiki "[[Label|Holy Fool]]".data) ∧
    "holy-fool" ∈ extractWikiLinks "[[Label|Holy Fool]]" :=
  ⟨by decide, by
    have h := C10_piped_wikilink_normalization.1 "[[Label|Holy Fool]]"
      "Label".data "Holy Fool".data (by decide)
    rwa [show String.mk (normalizeSlug "Holy Fool".data) = "holy-fool" from by decide] at h⟩

/-! ## Claim C6 -/

/-- C6: routeQuery returns the cheap Haiku profile exactly when the
    classifier returns simple, and returns the Sonnet profile for both
    the medium and complex labels; the query about kenosis matches the
    what-is pattern, is classified simple and is routed to Haiku. -/
theorem C6_routing_policy :
    (∀ (query : String) (selectedText : Option String),
      routeQuery query selectedText = MODELS.HAIKU ↔
        analyzeQueryComplexity query selectedText = QueryComplexity.simple) ∧
    (∀ (query : String) (selectedText : Option String),
      analyzeQueryComplexity query selectedText = QueryComplexity.medium ∨
      analyzeQueryComplexity query selectedText = QueryComplexity.complex →
      routeQuery query selectedText = MODELS.SONNET) ∧
    analyzeQueryComplexity "What is kenosis?" none = QueryComplexity.simple ∧
    routeQuery "What is kenosis?" none = MODELS.HAIKU := by
  have hne : MODELS.HAIKU ≠ MODELS.SONNET := by
    intro h
    exact (by decide : "anthropic/claude-3.5-haiku" ≠ "anthropic/claude-sonnet-4.5")
      (congrArg ModelConfig.model h)
  refine ⟨?_, ?_, by decide, rfl⟩
  · intro q sel
    unfold routeQuery
    by_cases h : analyzeQueryComplexity q sel = QueryComplexity.simple
    · rw [if_pos h]
      exact ⟨fun _ => h, fun _ => rfl⟩
    · rw [if_neg h]
      exact ⟨fun hh => absurd hh.symm hne, fun hh => absurd hh h⟩
  · intro q sel h
    have hns : analyzeQueryComplexity q sel ≠ QueryComplexity.simple := by
      rcases h with h | h <;> rw [h] <;> decide
    unfold routeQuery
    rw [if_neg hns]

/-- C6 witness: the comparison query is classified complex and routed to
    the Sonnet profile through the medium-or-complex branch. -/
theorem C6_routing_policy_witness :
    (analyzeQueryComplexity
        "Compare the theological implications of sukr and yurodstvo in depth" none =
          QueryComplexity.medium ∨
     analyzeQueryComplexity
        "Compare the theological implications of sukr and yurodstvo in depth" none =
          QueryComplexity.complex) ∧
    routeQuery "Compare the theological implications of sukr and yurodstvo in depth"
        none = MODELS.SONNET :=
  ⟨Or.inr (by decide),
   C6_routing_policy.2.1 _ none (Or.inr (by decide))⟩

/-! ## Claim C7 -/

/-- C7: for a query matching no simple pattern and no complex indicator,
    the length heuristics decide: word count above twenty or a selected
    text longer than one hundred characters gives medium; otherwise word
    count at most ten gives simple; otherwise the default is medium. -/
theorem C7_length_heuristics (query : String) (selectedText : Option String)
    (hs : matchesSimplePattern (lowerQueryOf query) = false)
    (hc : matchesComplexPattern (lowerQueryOf query) = false) :
    ((20 < wordCountJS query ∨ hasLongSel selectedText = true) →
      analyzeQueryComplexity query selectedText = QueryComplexity.medium) ∧
    (wordCountJS query ≤ 20 → hasLongSel selectedText = false →
      wordCountJS query ≤ 10 →
      analyzeQueryComplexity query selectedText = QueryComplexity.simple) ∧
    (wordCountJS query ≤ 20 → hasLongSel selectedText = false →
      10 < wordCountJS query →
      analyzeQueryComplexity query selectedText = QueryComplexity.medium) := by
  unfold analyzeQueryComplexity
  simp only [hs, hc, Bool.false_eq_true, if_false]
  refine ⟨?_, ?_, ?_⟩
  · intro h
    rw [if_pos h]
  · intro h1 h2 h3
    rw [if_neg (fun hcontra => by
      rcases hcontra with h | h
      · omega
      · rw [h2] at h; cases h)]
    rw [if_pos h3]
  · intro h1 h2 h3
    rw [if_neg (fun hcontra => by
      rcases hcontra with h | h
      · omega
      · rw [h2] at h; cases h)]
    rw [if_neg (by omega)]

/-- A twenty-five word query matching none of the classifier patterns. -/
def q25 : String :=
  "the monks of the city walked along the river road at dawn and sang old songs before the gates of the great stone chapel opened"

/-- C7 witness: the twenty-five word pattern-free query goes through the
    length heuristics and is classified medium. -/
theorem C7_length_heuristics_witness :
    matchesSimplePattern (lowerQueryOf q25) = false ∧
    matchesComplexPattern (lowerQueryOf q25) = false ∧
    20 < wordCountJS q25 ∧
    analyzeQueryComplexity q25 none = QueryComplexity.medium :=
  ⟨by decide, by decide, by decide,
   (C7_length_heuristics q25 none (by decide) (by decide)).1 (Or.inl (by decide))⟩

/-! ## Claim C8 -/

/-- C8 counterexample: a supplied but empty page context is falsy in the
    JS truthiness test of the source, so no context segment is produced
    even though a page context was supplied, contradicting the claim that
    a supplied page context always yields a cacheable context segment. -/
theorem C8_truthiness_counterexample :
    buildCachedMessages "q" (some "") none = [sysMsg, queryMsg "q"] ∧
    ctxMsg "" ∉ buildCachedMessages "q" (some "") none := by
  constructor
  · rfl
  · decide

/-- C8 amended: for a non-empty page context and a non-empty selected
    text, buildCachedMessages returns exactly the cacheable system
    prompt, then the cacheable truncated context segment, then the
    uncacheable selected-text segment, then the uncacheable query; absent
    or empty optional inputs produce no segment, and the truncation keeps
    at most two thousand characters, appending the ellipsis exactly when
    the source exceeds the budget. -/
theorem C8_message_assembly_amended :
    (∀ q : String, buildCachedMessages q none none = [sysMsg, queryMsg q]) ∧
    (∀ q c : String, c ≠ "" →
      buildCachedMessages q (some c) none = [sysMsg, ctxMsg c, queryMsg q]) ∧
    (∀ q s : String, s ≠ "" →
      buildCachedMessages q none (some s) = [sysMsg, selMsg s, queryMsg q]) ∧
    (∀ q c s : String, c ≠ "" → s ≠ "" →
      buildCachedMessages q (some c) (some s) =
        [sysMsg, ctxMsg c, selMsg s, queryMsg q]) ∧
    (sysMsg.cache_control = some "ephemeral" ∧
      (∀ c, (ctxMsg c).cache_control = some "ephemeral") ∧
      (∀ s, (selMsg s).cache_control = none) ∧
      (∀ q, (queryMsg q).cache_control = none)) ∧
    (∀ c, (ctxMsg c).content = "Current Page Context:\n\n" ++ truncateContext c 2000) ∧
    (∀ c : String, (truncateContext c 2000).length ≤ 2000) ∧
    (∀ c : String, c.length ≤ 2000 → truncateContext c 2000 = c) ∧
    (∀ c : String, 2000 < c.length →
      truncateContext c 2000 = String.mk (c.data.take 1997) ++ "...") := by
  refine ⟨?_, ?_, ?_, ?_, ⟨rfl, fun _ => rfl, fun _ => rfl, fun _ => rfl⟩,
    fun _ => rfl, ?_, ?_, ?_⟩
  · intro q; rfl
  · intro q c hc
    simp [buildCachedMessages, truthyS, hc]
  · intro q s hs
    simp [buildCachedMessages, truthyS, hs]
  · intro q c s hc hs
    simp [buildCachedMessages, truthyS, hc, hs]
  · intro c
    unfold truncateContext
    by_cases h : c.length ≤ 2000
    · rw [if_pos h]; exact h
    · rw [if_neg h]
      show (c.data.take (2000 - 3) ++ "...".data).length ≤ 2000
      rw [List.length_append, List.length_take]
      have h3 : "...".data.length = 3 := rfl
      omega
  · intro c h
    unfold truncateContext
    rw [if_pos h]
  · intro c h
    unfold truncateContext
    rw [if_neg (by omega)]

/-- A page context of two thousand and one characters, exceeding the
    truncation budget. -/
def bigContext : String := String.mk (List.replicate 2001 'a')

/-- C8 witness: non-empty context and selection produce the four-segment
    list; a short context is kept verbatim and an oversized context is
    truncated with the ellipsis appended. -/
theorem C8_message_assembly_amended_witness :
    buildCachedMessages "q" (some "c") (some "s") =
      [sysMsg, ctxMsg "c", selMsg "s", queryMsg "q"] ∧
    truncateContext "c" 2000 = "c" ∧
    truncateContext bigContext 2000 =
      String.mk (bigContext.data.take 1997) ++ "..." :=
  ⟨C8_message_assembly_amended.2.2.2.1 "q" "c" "s" (by decide) (by decide),
   C8_message_assembly_amended.2.2.2.2.2.2.2.1 "c" (by decide),
   C8_message_assembly_amended.2.2.2.2.2.2.2.2 bigContext (by
     show 2000 < (List.replicate 2001 'a').length
     rw [List.length_replicate]
     omega)⟩

/-! ## Research cache lemmas -/

/-- calculateSimilarity as an explicit ratio of word-set sizes. -/
theorem calculateSimilarity_def (q1 q2 : String) :
    calculateSimilarity q1 q2 =
      (((wordSet q1).filter (fun w => w ∈ wordSet q2)).length : ℚ) /
        ((dedupJS (wordSet q1 ++ wordSet q2)).length : ℚ) := rfl

/-- A hit of the similarity scan comes from an entry of the scanned
    cache whose expiry has not strictly passed. -/
theorem findSimilarQuery_some_mem {params : TavilySearchParams} {now : Int} :
    ∀ {cache : List (NormalizedParams × CacheEntry)} {e : CacheEntry}
      {c2 : List (NormalizedParams × CacheEntry)},
      findSimilarQuery params now cache = (some e, c2) →
      (∃ k, (k, e) ∈ cache) ∧ ¬ (e.expiresAt < now) := by
  intro cache
  induction cache with
  | nil =>
    intro e c2 h
    simp [findSimilarQuery] at h
  | cons kv rest ih =>
    obtain ⟨k0, e0⟩ := kv
    intro e c2 h
    simp only [findSimilarQuery] at h
    by_cases hex : e0.expiresAt < now
    · rw [if_pos hex] at h
      obtain ⟨⟨k, hk⟩, hlive⟩ := ih h
      exact ⟨⟨k, List.mem_cons_of_mem _ hk⟩, hlive⟩
    · rw [if_neg hex] at h
      by_cases hsim : SIMILARITY_THRESHOLD ≤ calculateSimilarity params.query e0.data.query
      · rw [if_pos hsim] at h
        simp only [Prod.mk.injEq, Option.some.injEq] at h
        obtain ⟨h1, _⟩ := h
        subst h1
        exact ⟨⟨k0, List.mem_cons_self _ _⟩, hex⟩
      · rw [if_neg hsim] at h
        simp only [Prod.mk.injEq] at h
        obtain ⟨h1, _⟩ := h
        have hr : findSimilarQuery params now rest =
            (some e, (findSimilarQuery params now rest).2) := by
          rw [← h1]
        obtain ⟨⟨k, hk⟩, hlive⟩ := ih hr
        exact ⟨⟨k, List.mem_cons_of_mem _ hk⟩, hlive⟩

/-- After a miss of the similarity scan, every entry left in the cache
    has an expiry that has not strictly passed: the full scan evicted
    every expired entry. -/
theorem findSimilarQuery_none_live {params : TavilySearchParams} {now : Int} :
    ∀ {cache c2 : List (NormalizedParams × CacheEntry)},
      findSimilarQuery params now cache = (none, c2) →
      ∀ k e, (k, e) ∈ c2 → ¬ (e.expiresAt < now) := by
  intro cache
  induction cache with
  | nil =>
    intro c2 h k e hke
    simp only [findSimilarQuery, Prod.mk.injEq] at h
    rw [← h.2] at hke
    simp at hke
  | cons kv rest ih =>
    obtain ⟨k0, e0⟩ := kv
    intro c2 h k e hke
    simp only [findSimilarQuery] at h
    by_cases hex : e0.expiresAt < now
    · rw [if_pos hex] at h
      exact ih h k e hke
    · rw [if_neg hex] at h
      by_cases hsim : SIMILARITY_THRESHOLD ≤ calculateSimilarity params.query e0.data.query
      · rw [if_pos hsim] at h
        simp at h
      · rw [if_neg hsim] at h
        simp only [Prod.mk.injEq] at h
        obtain ⟨h1, h2⟩ := h
        rw [← h2] at hke
        rcases List.mem_cons.mp hke with hh | hh
        · rw [Prod.mk.injEq] at hh
          obtain ⟨_, rfl⟩ := hh
          exact hex
        · have hr : findSimilarQuery params now rest =
              (none, (findSimilarQuery params now rest).2) := by
            rw [← h1]
          exact ih hr k e hh

/-- A hit of the fallback tier comes from a cache entry whose expiry is
    at or after the lookup time, with the cached flag set. -/
theorem getCachedFallback_some {params : TavilySearchParams} {now : Int}
    {cache c2 : List (NormalizedParams × CacheEntry)} {r : TavilySearchResult}
    (h : getCachedFallback params now cache = (some r, c2)) :
    ∃ k e, (k, e) ∈ cache ∧ now ≤ e.expiresAt ∧ r = { e.data with cached := true } := by
  unfold getCachedFallback at h
  rcases hfs : findSimilarQuery params now cache with ⟨o, c3⟩
  rw [hfs] at h
  cases o with
  | some e =>
    simp only [Prod.mk.injEq, Option.some.injEq] at h
    obtain ⟨⟨k, hk⟩, hlive⟩ := findSimilarQuery_some_mem hfs
    exact ⟨k, e, hk, Int.not_lt.mp hlive, h.1.symm⟩
  | none => simp at h

/-- After a miss of the fallback tier, every remaining entry has an
    expiry at or after the lookup time. -/
theorem getCachedFallback_none {params : TavilySearchParams} {now : Int}
    {cache c2 : List (NormalizedParams × CacheEntry)}
    (h : getCachedFallback params now cache = (none, c2)) :
    ∀ k e, (k, e) ∈ c2 → now ≤ e.expiresAt := by
  unfold getCachedFallback at h
  rcases hfs : findSimilarQuery params now cache with ⟨o, c3⟩
  rw [hfs] at h
  cases o with
  | some e => simp at h
  | none =>
    simp only [Prod.mk.injEq] at h
    intro k e hke
    rw [← h.2] at hke
    exact Int.not_lt.mp (findSimilarQuery_none_live hfs k e hke)

/-! ## Claim C3 -/

/-- C3 counterexample: trim does not collapse interior whitespace, so the
    case and whitespace variant produces a different normalized cache key
    than the stored query, and the exact-match lookup of the variant key
    misses after the store: the claimed exact-match hash path does not
    fire for this pair. -/
theorem C3_cache_key_counterexample :
    getCacheKey (mkParams "byzantine  SALOI") ≠ getCacheKey (mkParams "Byzantine saloi") ∧
    mapGet (setCachedResult (mkParams "Byzantine saloi") (mkResult "Byzantine saloi") 0 [])
      (getCacheKey (mkParams "byzantine  SALOI")) = none := by
  exact ⟨by decide, by decide⟩

/-- C3 amended: after storing a result under the query Byzantine saloi,
    a lookup with the case and whitespace variant within the TTL returns
    that result with the cached flag set, but through the similarity
    fallback tier, whose word-set Jaccard similarity is one, not through
    the exact-match hash path: the two normalized keys differ because
    interior whitespace is preserved. -/
theorem C3_cache_variant_amended (res : TavilySearchResult) (now t0 : Int)
    (hq : res.query = "Byzantine saloi") (_ht : t0 ≤ now) (h2 : now < t0 + CACHE_TTL) :
    getCacheKey (mkParams "byzantine  SALOI") ≠ getCacheKey (mkParams "Byzantine saloi") ∧
    getCachedResult (mkParams "byzantine  SALOI") now
        (setCachedResult (mkParams "Byzantine saloi") res t0 []) =
      (some { res with cached := true },
        setCachedResult (mkParams "Byzantine saloi") res t0 []) := by
  refine ⟨by decide, ?_⟩
  have hsim : SIMILARITY_THRESHOLD ≤
      calculateSimilarity (mkParams "byzantine  SALOI").query res.query := by
    rw [hq, calculateSimilarity_def]
    rw [show ((wordSet (mkParams "byzantine  SALOI").query).filter
        (fun w => w ∈ wordSet "Byzantine saloi")).length = 2 from by decide]
    rw [show (dedupJS (wordSet (mkParams "byzantine  SALOI").query ++
        wordSet "Byzantine saloi")).length = 2 from by decide]
    rw [SIMILARITY_THRESHOLD]
    norm_num
  have hnex : ¬ (t0 + CACHE_TTL < now) := by omega
  have hkey : ¬ (getCacheKey (mkParams "Byzantine saloi") =
      getCacheKey (mkParams "byzantine  SALOI")) := by decide
  simp only [getCachedResult, setCachedResult, getCachedFallback, findSimilarQuery,
    mapGet, mapSet, if_neg hkey, if_neg hnex, if_pos hsim]

/-- C3 witness: the amended lookup at the store time itself, inside the
    TTL, returns the stored payload with the cached flag set. -/
theorem C3_cache_variant_amended_witness :
    ((0 : Int) ≤ 0 ∧ (0 : Int) < 0 + CACHE_TTL ∧
      (mkResult "Byzantine saloi").query = "Byzantine saloi") ∧
    getCachedResult (mkParams "byzantine  SALOI") 0
        (setCachedResult (mkParams "Byzantine saloi") (mkResult "Byzantine saloi") 0 []) =
      (some { mkResult "Byzantine saloi" with cached := true },
        setCachedResult (mkParams "Byzantine saloi") (mkResult "Byzantine saloi") 0 []) :=
  ⟨⟨le_refl 0, by decide, rfl⟩,
   (C3_cache_variant_amended (mkResult "Byzantine saloi") 0 0 rfl (le_refl 0)
      (by decide)).2⟩

/-! ## Claim C4 -/

/-- C4 counterexample: the word-set Jaccard similarity of the query
    Byzantine holy fools against the stored query Byzantine saloi holy
    fools tradition is three fifths, below the 0.85 threshold, so the
    lookup returns nothing: the claimed similarity hit does not happen
    for this pair. -/
theorem C4_similarity_counterexample :
    calculateSimilarity "Byzantine holy fools" "Byzantine saloi holy fools tradition" =
      3 / 5 ∧
    ¬ (SIMILARITY_THRESHOLD ≤
        calculateSimilarity "Byzantine holy fools" "Byzantine saloi holy fools tradition") ∧
    (getCachedResult (mkParams "Byzantine holy fools") 0
        (setCachedResult (mkParams "Byzantine saloi holy fools tradition")
          (mkResult "Byzantine saloi holy fools tradition") 0 [])).1 = none := by
  have h35 : calculateSimilarity "Byzantine holy fools"
      "Byzantine saloi holy fools tradition" = 3 / 5 := by
    rw [calculateSimilarity_def]
    rw [show ((wordSet "Byzantine holy fools").filter
        (fun w => w ∈ wordSet "Byzantine saloi holy fools tradition")).length = 3
      from by decide]
    rw [show (dedupJS (wordSet "Byzantine holy fools" ++
        wordSet "Byzantine saloi holy fools tradition")).length = 5 from by decide]
    norm_num
  have hns : ¬ (SIMILARITY_THRESHOLD ≤
      calculateSimilarity "Byzantine holy fools" "Byzantine saloi holy fools tradition") := by
    rw [h35, SIMILARITY_THRESHOLD]
    norm_num
  refine ⟨h35, hns, ?_⟩
  have hns2 : ¬ (SIMILARITY_THRESHOLD ≤
      calculateSimilarity (mkParams "Byzantine holy fools").query
        (mkResult "Byzantine saloi holy fools tradition").query) := hns
  have hnex : ¬ ((0 : Int) + CACHE_TTL < 0) := by decide
  have hkey : ¬ (getCacheKey (mkParams "Byzantine saloi holy fools tradition") =
      getCacheKey (mkParams "Byzantine holy fools")) := by decide
  simp only [getCachedResult, setCachedResult, getCachedFallback, findSimilarQuery,
    mapGet, mapSet, if_neg hkey, if_neg hnex, if_neg hns2]

/-- C4 amended: with the cached query Byzantine saloi holy fools
    tradition, the lookup Byzantine holy fools has similarity three
    fifths and misses, while a lookup whose word set coincides with the
    stored one, such as the reordering saloi Byzantine tradition holy
    fools, reaches similarity one, meets the threshold and returns the
    cached entry with its cached flag set to true through the similarity
    fallback. -/
theorem C4_similarity_amended (res : TavilySearchResult) (now t0 : Int)
    (hq : res.query = "Byzantine saloi holy fools tradition")
    (_ht : t0 ≤ now) (h2 : now < t0 + CACHE_TTL) :
    (getCachedResult (mkParams "Byzantine holy fools") now
        (setCachedResult (mkParams "Byzantine saloi holy fools tradition") res t0 [])).1 =
      none ∧
    getCachedResult (mkParams "saloi Byzantine tradition holy fools") now
        (setCachedResult (mkParams "Byzantine saloi holy fools tradition") res t0 []) =
      (some { res with cached := true },
        setCachedResult (mkParams "Byzantine saloi holy fools tradition") res t0 []) := by
  have hnex : ¬ (t0 + CACHE_TTL < now) := by omega
  constructor
  · have hns : ¬ (SIMILARITY_THRESHOLD ≤
        calculateSimilarity (mkParams "Byzantine holy fools").query res.query) := by
      rw [hq, calculateSimilarity_def]
      rw [show ((wordSet (mkParams "Byzantine holy fools").query).filter
          (fun w => w ∈ wordSet "Byzantine saloi holy fools tradition")).length = 3
        from by decide]
      rw [show (dedupJS (wordSet (mkParams "Byzantine holy fools").query ++
          wordSet "Byzantine saloi holy fools tradition")).length = 5 from by decide]
      rw [SIMILARITY_THRESHOLD]
      norm_num
    have hkey : ¬ (getCacheKey (mkParams "Byzantine saloi holy fools tradition") =
        getCacheKey (mkParams "Byzantine holy fools")) := by decide
    simp only [getCachedResult, setCachedResult, getCachedFallback, findSimilarQuery,
      mapGet, mapSet, if_neg hkey, if_neg hnex, if_neg hns]
  · have hsim : SIMILARITY_THRESHOLD ≤
        calculateSimilarity (mkParams "saloi Byzantine tradition holy fools").query
          res.query := by
      rw [hq, calculateSimilarity_def]
      rw [show ((wordSet (mkParams "saloi Byzantine tradition holy fools").query).filter
          (fun w => w ∈ wordSet "Byzantine saloi holy fools tradition")).length = 5
        from by decide]
      rw [show (dedupJS (wordSet (mkParams "saloi Byzantine tradition holy fools").query ++
          wordSet "Byzantine saloi holy fools tradition")).length = 5 from by decide]
      rw [SIMILARITY_THRESHOLD]
      norm_num
    have hkey : ¬ (getCacheKey (mkParams "Byzantine saloi holy fools tradition") =
        getCacheKey (mkParams "saloi Byzantine tradition holy fools")) := by decide
    simp only [getCachedResult, setCachedResult, getCachedFallback, findSimilarQuery,
      mapGet, mapSet, if_neg hkey, if_neg hnex, if_pos hsim]

/-- C4 witness: both parts of the amended claim at the store time. -/
theorem C4_similarity_amended_witness :
    ((0 : Int) ≤ 0 ∧ (0 : Int) < 0 + CACHE_TTL ∧
      (mkResult "Byzantine saloi holy fools tradition").query =
        "Byzantine saloi holy fools tradition") ∧
    (getCachedResult (mkParams "Byzantine holy fools") 0
        (setCachedResult (mkParams "Byzantine saloi holy fools tradition")
          (mkResult "Byzantine saloi holy fools tradition") 0 [])).1 = none ∧
    getCachedResult (mkParams "saloi Byzantine tradition holy fools") 0
        (setCachedResult (mkParams "Byzantine saloi holy fools tradition")
          (mkResult "Byzantine saloi holy fools tradition") 0 []) =
      (some { mkResult "Byzantine saloi holy fools tradition" with cached := true },
        setCachedResult (mkParams "Byzantine saloi holy fools tradition")
          (mkResult "Byzantine saloi holy fools tradition") 0 []) :=
  ⟨⟨le_refl 0, by decide, rfl⟩,
   (C4_similarity_amended (mkResult "Byzantine saloi holy fools tradition") 0 0 rfl
      (le_refl 0) (by decide)).1,
   (C4_similarity_amended (mkResult "Byzantine saloi holy fools tradition") 0 0 rfl
      (le_refl 0) (by decide)).2⟩

/-! ## Claim C5 -/

/-- C5 counterexample: a lookup of the stored query at exactly the
    expiry instant, which is not strictly before the expiry, still
    returns the entry: the exact tier rejects it but the similarity scan
    skips only entries with expiresAt strictly below now and the stored
    query has similarity one with itself, so the entry is returned at a
    time when the validity invariant calls it expired. -/
theorem C5_expiry_counterexample :
    (getCachedResult (mkParams "byzantine saloi") CACHE_TTL
        (setCachedResult (mkParams "byzantine saloi") (mkResult "byzantine saloi") 0 [])).1 =
      some { mkResult "byzantine saloi" with cached := true } ∧
    ¬ (CACHE_TTL < 0 + CACHE_TTL) := by
  refine ⟨?_, by decide⟩
  have hsim : SIMILARITY_THRESHOLD ≤
      calculateSimilarity (mkParams "byzantine saloi").query
        (mkResult "byzantine saloi").query := by
    rw [calculateSimilarity_def]
    rw [show ((wordSet (mkParams "byzantine saloi").query).filter
        (fun w => w ∈ wordSet (mkResult "byzantine saloi").query)).length = 2
      from by decide]
    rw [show (dedupJS (wordSet (mkParams "byzantine saloi").query ++
        wordSet (mkResult "byzantine saloi").query)).length = 2 from by decide]
    rw [SIMILARITY_THRESHOLD]
    norm_num
  have hkey : getCacheKey (mkParams "byzantine saloi") =
      getCacheKey (mkParams "byzantine saloi") := rfl
  have hnow : ¬ (CACHE_TTL < (0 : Int) + CACHE_TTL) := by decide
  have hnex : ¬ ((0 : Int) + CACHE_TTL < CACHE_TTL) := by decide
  simp only [getCachedResult, setCachedResult, getCachedFallback, findSimilarQuery,
    mapGet, mapSet, if_pos hkey, if_true, if_neg hnow, if_neg hnex, if_pos hsim]

/-- C5 amended: a lookup returns a result only from an entry of the
    cache whose expiry is at or after the lookup time, with the cached
    flag set (the exact tier additionally requires the expiry to be
    strictly in the future); after a miss, the similarity scan has
    evicted every entry whose expiry strictly preceded the lookup time,
    so the cache holds only unexpired entries; and setCachedResult never
    evicts: it leaves every other key untouched. -/
theorem C5_expiry_amended :
    (∀ (params : TavilySearchParams) (now : Int)
      (cache c2 : List (NormalizedParams × CacheEntry)) (r : TavilySearchResult),
      getCachedResult params now cache = (some r, c2) →
      ∃ k e, (k, e) ∈ cache ∧ now ≤ e.expiresAt ∧ r = { e.data with cached := true }) ∧
    (∀ (params : TavilySearchParams) (now : Int)
      (cache c2 : List (NormalizedParams × CacheEntry)),
      getCachedResult params now cache = (none, c2) →
      ∀ k e, (k, e) ∈ c2 → now ≤ e.expiresAt) ∧
    (∀ (params : TavilySearchParams) (res : TavilySearchResult) (now : Int)
      (cache : List (NormalizedParams × CacheEntry)) (k : NormalizedParams),
      k ≠ getCacheKey params →
      mapGet (setCachedResult params res now cache) k = mapGet cache k) := by
  refine ⟨?_, ?_, ?_⟩
  · intro params now cache c2 r h
    unfold getCachedResult at h
    rcases hmg : mapGet cache (getCacheKey params) with _ | entry
    · rw [hmg] at h
      simp only [] at h
      exact getCachedFallback_some h
    · rw [hmg] at h
      simp only [] at h
      by_cases hlt : now < entry.expiresAt
      · rw [if_pos hlt] at h
        simp only [Prod.mk.injEq, Option.some.injEq] at h
        exact ⟨getCacheKey params, entry, mapGet_mem hmg, le_of_lt hlt, h.1.symm⟩
      · rw [if_neg hlt] at h
        exact getCachedFallback_some h
  · intro params now cache c2 h
    unfold getCachedResult at h
    rcases hmg : mapGet cache (getCacheKey params) with _ | entry
    · rw [hmg] at h
      simp only [] at h
      exact getCachedFallback_none h
    · rw [hmg] at h
      simp only [] at h
      by_cases hlt : now < entry.expiresAt
      · rw [if_pos hlt] at h
        simp at h
      · rw [if_neg hlt] at h
        exact getCachedFallback_none h
  · intro params res now cache k hk
    unfold setCachedResult
    exact mapGet_mapSet_ne _ _ hk

/-- C5 witness: a fresh store looked up immediately comes from the
    stored entry with an expiry in the future; a lookup on the empty
    cache misses and leaves nothing expired; and a store leaves a
    different key unchanged. -/
theorem C5_expiry_amended_witness :
    (∃ k e, (k, e) ∈ setCachedResult (mkParams "byzantine saloi")
        (mkResult "byzantine saloi") 0 [] ∧
      (0 : Int) ≤ e.expiresAt ∧
      ({ mkResult "byzantine saloi" with cached := true } : TavilySearchResult) =
        { e.data with cached := true }) ∧
    (∀ k e, (k, e) ∈ ([] : List (NormalizedParams × CacheEntry)) →
      (0 : Int) ≤ e.expiresAt) ∧
    mapGet (setCachedResult (mkParams "byzantine saloi") (mkResult "byzantine saloi") 0 [])
        (getCacheKey (mkParams "other")) =
      mapGet ([] : List (NormalizedParams × CacheEntry))
        (getCacheKey (mkParams "other")) :=
  ⟨C5_expiry_amended.1 (mkParams "byzantine saloi") 0
      (setCachedResult (mkParams "byzantine saloi") (mkResult "byzantine saloi") 0 [])
      (setCachedResult (mkParams "byzantine saloi") (mkResult "byzantine saloi") 0 [])
      { mkResult "byzantine saloi" with cached := true } (by decide),
   C5_expiry_amended.2.1 (mkParams "other") 0 [] [] (by decide),
   C5_expiry_amended.2.2 (mkParams "byzantine saloi") (mkResult "byzantine saloi") 0 []
     (getCacheKey (mkParams "other")) (by decide)⟩
